import Mathlib

/-!
Verification development for a small recursive-descent JSON parser written in Go
(`main.go`).  The source file concatenates two historical versions of the parser;
both are embedded below.  The namespace `JsonParser` holds the current (second)
version; the namespace `JsonParser.V1` holds the first version, which supports
only objects, arrays and strings.

Modelling conventions:
* The input `string` is modelled as a `List Char` (the inputs in scope are ASCII,
  so Go byte indexing coincides with character indexing).
* The parser state is the scan position `pos : Nat`; every operation returns a
  `PResult` carrying the final position.
* A Go runtime panic caused by an out-of-bounds index `p.input[p.pos]` is the
  `PResult.crash` outcome.
* The mutually recursive functions (`parseValue`, `parseObject`, `parseArray`
  and the loop bodies of the latter two) take a fuel parameter; exhausted fuel
  is the artificial outcome `PResult.outOfFuel`, which never occurs for
  sufficiently large fuel.
* `fmt.Println` side effects are not modelled (they do not affect return values).
-/

namespace JsonParser

/-- The dynamic `JSON interface{}` value of the Go source, as a closed sum.
`null` is Go `nil` (also the result of the dispatcher's default case),
`int` is the result of `strconv.Atoi`, `float` is the result of
`strconv.ParseFloat` with the numeric `float64` value abstracted as its
validated lexeme (no observable behaviour in scope inspects the rounded value). -/
inductive JSON where
  | null : JSON
  | bool (b : Bool) : JSON
  | int (n : Int) : JSON
  | float (lexeme : String) : JSON
  | str (s : String) : JSON
  | arr (elems : List JSON) : JSON
  | obj (fields : List (String × JSON)) : JSON

/-- The two `strconv` error kinds: `ErrSyntax` and `ErrRange`. -/
inductive NumErrKind where
  | errSyn : NumErrKind
  | errRange : NumErrKind
  deriving DecidableEq

/-- A Go `error` value returned by the parser: either the parser's own
`ParseError{msg, pos}` or a `strconv.NumError{Func, Num, Err}` (which carries
the function name and offending lexeme but no input position). -/
inductive GoError where
  | parseError (msg : String) (pos : Nat) : GoError
  | numError (fn : String) (num : String) (kind : NumErrKind) : GoError
  deriving DecidableEq

/-- The input position recorded inside an error, when the error kind has one:
`ParseError` has a `pos` field, `strconv.NumError` has none. -/
def GoError.position : GoError → Option Nat
  | .parseError _ p => some p
  | .numError _ _ _ => none

/-- Outcome of running a parser operation: Go's `(value, error)` pair plus the
final cursor position, a runtime panic (out-of-bounds index), or fuel
exhaustion (an artifact of the embedding). -/
inductive PResult (α : Type) where
  | ok (val : α) (pos : Nat) : PResult α
  | err (e : GoError) (pos : Nat) : PResult α
  | crash (pos : Nat) : PResult α
  | outOfFuel (pos : Nat) : PResult α

/-- The parser position after an operation, whatever its outcome. -/
def PResult.endPos : PResult α → Nat
  | .ok _ p => p
  | .err _ p => p
  | .crash p => p
  | .outOfFuel p => p

/-- Go's `x, err := call(); if err != nil { return nil, err }` propagation:
continue on success, forward errors, panics and fuel exhaustion. -/
def PResult.bind (r : PResult α) (f : α → Nat → PResult β) : PResult β :=
  match r with
  | .ok a p => f a p
  | .err e p => .err e p
  | .crash p => .crash p
  | .outOfFuel p => .outOfFuel p

/-- The whitespace characters of the second version's `skipWhiteSpace`:
space, newline, tab, carriage return. -/
def isWhitespaceChar (c : Char) : Bool :=
  c = ' ' || c = '\n' || c = '\t' || c = '\r'

/-- Length of the maximal whitespace run at the head of a list. -/
def wsRun : List Char → Nat
  | [] => 0
  | c :: rest => if isWhitespaceChar c then wsRun rest + 1 else 0

/-- `func (p *Parser) skipWhiteSpace()` (second version): advance `pos` while
in bounds and the current character is space/newline/tab/CR.  The loop's final
position is `pos` plus the whitespace run starting at `pos`. -/
def skipWhiteSpace (input : List Char) (pos : Nat) : Nat :=
  pos + wsRun (input.drop pos)

/-- Go slice `input[start:stop]`. -/
def slice (input : List Char) (start stop : Nat) : List Char :=
  (input.drop start).take (stop - start)

/-- An apostrophe character, kept as a named constant. -/
def squoteChar : Char := Char.ofNat 39

/-- `fmt.Sprintf("%q", b)` for a byte: the character wrapped in single quotes
(the characters in scope are printable ASCII, needing no escapes). -/
def goQuoteChar (c : Char) : String :=
  String.mk [squoteChar, c, squoteChar]

/-- `fmt.Sprintf("%q", s)` for a string: the string wrapped in double quotes
(the strings in scope are printable ASCII, needing no escapes). -/
def goQuote (s : String) : String :=
  "\"" ++ s ++ "\""

/-- `'0' ≤ c ≤ '9'`, the byte cases `48..57` of the Go switch statements. -/
def isDigitByte (c : Char) : Bool :=
  '0' ≤ c && c ≤ '9'

/-- The characters consumed unconditionally by the number scan loop:
byte case `45` (`-`) and `48..57` (digits). -/
def isScanChar (c : Char) : Bool :=
  c = '-' || isDigitByte c

/-- Decimal digit value of a digit character. -/
def digitVal (c : Char) : Nat := c.toNat - 48

/-- Reads a nonempty all-digit character list as a natural number;
`none` on an empty list or any non-digit (strconv's `ErrSyntax` condition). -/
def digitsToNat? (l : List Char) : Option Nat :=
  if l = [] || !(l.all isDigitByte) then none
  else some (l.foldl (fun acc c => acc * 10 + digitVal c) 0)

/-- Core of `strconv.Atoi` (= `ParseInt(s, 10, 0)` with 64-bit `int`): after
the optional sign, the remainder must be one or more digits (`ErrSyntax`
otherwise), and the value must fit in `int64` (`ErrRange` otherwise: above
`2^63 - 1` for positives, above `2^63` in magnitude for negatives). -/
def goAtoiCore (s : String) (neg : Bool) (digits : List Char) : Except GoError Int :=
  match digitsToNat? digits with
  | none => .error (.numError "Atoi" s .errSyn)
  | some n =>
    if neg then
      if 2 ^ 63 < n then .error (.numError "Atoi" s .errRange)
      else .ok (-(n : Int))
    else
      if 2 ^ 63 ≤ n then .error (.numError "Atoi" s .errRange)
      else .ok (n : Int)

/-- `strconv.Atoi`: optional leading `+` or `-`, then digits. -/
def goAtoi (s : String) : Except GoError Int :=
  match s.data with
  | '+' :: rest => goAtoiCore s false rest
  | '-' :: rest => goAtoiCore s true rest
  | cs => goAtoiCore s false cs

/-- `strings.TrimSpace` restricted to the ASCII whitespace characters that can
occur here (the lexemes it is applied to contain no whitespace at all, so this
is in fact the identity on every actual argument). -/
def goTrimSpace (s : String) : String :=
  String.mk (((s.data.dropWhile isWhitespaceChar).reverse.dropWhile isWhitespaceChar).reverse)

/-- Syntax accepted by `strconv.ParseFloat` restricted to the character set a
scanned fractional lexeme can contain (`-`, digits, one `.`): an optional
leading sign, then digits with at most one decimal point and at least one
digit.  The `float64` value is abstracted as the lexeme itself
(`JSON.float`); `ParseFloat`'s range error (only reachable with more than
about 308 integer digits) is not modelled, and no lexeme in this development
comes near it. -/
def floatBodyOk (l : List Char) : Bool :=
  let a := l.takeWhile isDigitByte
  let r := l.drop a.length
  match r with
  | [] => !a.isEmpty
  | '.' :: b => (!a.isEmpty || !b.isEmpty) && b.all isDigitByte
  | _ => false

/-- `strconv.ParseFloat(s, 64)` on the lexemes in scope (see `floatBodyOk`). -/
def goParseFloat (s : String) : Except GoError JSON :=
  let body :=
    match s.data with
    | '+' :: rest => rest
    | '-' :: rest => rest
    | cs => cs
  if floatBodyOk body then .ok (JSON.float s)
  else .error (.numError "ParseFloat" s .errSyn)

/-- The scan loop of `parseString` (both versions share this code):
`for p.input[p.pos] != '"' { p.pos++ }`.  The argument list is the input
suffix starting at `pos`; an empty suffix means the index is out of bounds,
a Go runtime panic. -/
def stringScan (pos : Nat) : List Char → PResult Nat
  | [] => .crash pos
  | c :: rest => if c = '"' then .ok pos pos else stringScan (pos + 1) rest

/-- `func (p *Parser) parseString() (string, error)`: skip the opening quote,
scan to the next `"`, return the characters strictly between the quotes and
leave the position just past the closing quote.  No bounds check: end of input
inside the scan is a panic. -/
def parseString (input : List Char) (pos : Nat) : PResult String :=
  (stringScan (pos + 1) (input.drop (pos + 1))).bind fun _ p =>
    .ok (String.mk (slice input (pos + 1) p)) (p + 1)

/-- Is `c` one of the structural delimiters `,` `]` `}`
(`ValueSeparator`, `EndArray`, `EndObject`)? -/
def isDelim (c : Char) : Bool :=
  c = ',' || c = ']' || c = '\x7d'

/-- The scan loop of `parseLiteral`: consume characters until a structural
delimiter, then compare the consumed span against the expected literal.
The list argument is the input suffix at `pos`; running out of input is a
panic (no bounds check in the source). -/
def literalLoop (input : List Char) (literal : String) (start : Nat) :
    Nat → List Char → PResult JSON
  | pos, [] => .crash pos
  | pos, c :: rest =>
    if isDelim c then
      let foundLiteral := String.mk (slice input start pos)
      if foundLiteral ≠ literal then
        .err (.parseError ("Expected " ++ goQuote literal ++ ", got " ++ goQuote foundLiteral) pos) pos
      else if literal = "true" then .ok (JSON.bool true) pos
      else if literal = "false" then .ok (JSON.bool false) pos
      else if literal = "null" then .ok JSON.null pos
      else
        .err (.parseError ("Expected " ++ goQuote literal ++ ", got " ++ goQuote foundLiteral) pos) pos
    else literalLoop input literal start (pos + 1) rest

/-- `func (p *Parser) parseLiteral(literal string) (interface{}, error)`:
record `start`, advance once unconditionally, then scan (see `literalLoop`). -/
def parseLiteral (input : List Char) (literal : String) (pos : Nat) : PResult JSON :=
  literalLoop input literal pos (pos + 1) (input.drop (pos + 1))

/-- The scan loop of `parseNumber`: consume `-` and digits; at most one `.`
(a second one is a positioned ParseError); a structural delimiter ends the
lexeme, which is then converted by `strconv.Atoi` (integral) or
`strconv.ParseFloat` after `strings.TrimSpace` (fractional); any other
character is a positioned ParseError; end of input is a panic.
The list argument is the input suffix at `pos`. -/
def numLoop (input : List Char) (start : Nat) : Nat → Bool → List Char → PResult JSON
  | pos, _, [] => .crash pos
  | pos, decimalFound, c :: rest =>
    if isScanChar c then numLoop input start (pos + 1) decimalFound rest
    else if c = '.' then
      if decimalFound then
        .err (.parseError ("Expected digit, got " ++ goQuoteChar c) pos) pos
      else numLoop input start (pos + 1) true rest
    else if isDelim c then
      let val := String.mk (slice input start pos)
      if decimalFound then
        match goParseFloat (goTrimSpace val) with
        | .ok j => .ok j pos
        | .error e => .err e pos
      else
        match goAtoi val with
        | .ok n => .ok (JSON.int n) pos
        | .error e => .err e pos
    else
      .err (.parseError ("Expected digit, got " ++ goQuoteChar c) pos) pos

/-- `func (p *Parser) parseNumber() (interface{}, error)`. -/
def parseNumber (input : List Char) (pos : Nat) : PResult JSON :=
  numLoop input pos pos false (input.drop pos)

/-- Go map assignment `obj[key] = value` on an association list: overwrite the
existing binding of `key` if present, append otherwise (last-write-wins). -/
def mapInsert : List (String × JSON) → String → JSON → List (String × JSON)
  | [], k, v => [(k, v)]
  | (k2, v2) :: rest, k, v =>
    if k2 = k then (k, v) :: rest else (k2, v2) :: mapInsert rest k v

/-- Go map lookup `obj[key]` on an association list. -/
def mapLookup : List (String × JSON) → String → Option JSON
  | [], _ => none
  | (k2, v2) :: rest, k => if k2 = k then some v2 else mapLookup rest k

mutual

/-- `func (p *Parser) parseValue() (JSON, error)` (second version): skip
whitespace, read the current character (panic at end of input), dispatch on
it; the default case returns `(nil, nil)` without advancing. -/
def parseValue (input : List Char) : Nat → Nat → PResult JSON
  | 0, pos => .outOfFuel pos
  | fuel + 1, pos0 =>
    let pos := skipWhiteSpace input pos0
    match input[pos]? with
    | none => .crash pos
    | some cur =>
      if cur = '\x7b' then parseObject input fuel pos
      else if cur = '"' then
        (parseString input pos).bind fun s p => .ok (JSON.str s) p
      else if cur = '[' then parseArray input fuel pos
      else if cur = 'f' then parseLiteral input "false" pos
      else if cur = 't' then parseLiteral input "true" pos
      else if cur = 'n' then parseLiteral input "null" pos
      else if isScanChar cur then parseNumber input pos
      else .ok JSON.null pos
termination_by structural fuel _ => fuel

/-- `func (p *Parser) parseObject() (JSON, error)` (second version): start
with an empty map, consume `\x7b`, loop (see `objLoop`). -/
def parseObject (input : List Char) : Nat → Nat → PResult JSON
  | 0, pos => .outOfFuel pos
  | fuel + 1, pos => objLoop input fuel [] (pos + 1)
termination_by structural fuel _ => fuel

/-- The `for` loop of the second version's `parseObject`: skip whitespace;
end of input is a positioned "unexpected end of input" error; `\x7d` ends the
object; otherwise parse a key with `parseString` (no quote check), require
`:` (panic at end of input), parse a value, assign it into the map, then
loop on `\x7d` (consumed at the next iteration) or consume `,`; any other
character is a positioned "expected , after" error. -/
def objLoop (input : List Char) : Nat → List (String × JSON) → Nat → PResult JSON
  | 0, _, pos => .outOfFuel pos
  | fuel + 1, obj, pos0 =>
    let pos := skipWhiteSpace input pos0
    match input[pos]? with
    | none => .err (.parseError "unexpected end of input" pos) pos
    | some c =>
      if c = '\x7d' then .ok (JSON.obj obj) (pos + 1)
      else
        (parseString input pos).bind fun key p1 =>
          let p2 := skipWhiteSpace input p1
          match input[p2]? with
          | none => .crash p2
          | some c2 =>
            if c2 ≠ ':' then .err (.parseError "expected : after key" p2) p2
            else
              (parseValue input fuel (p2 + 1)).bind fun value p3 =>
                let obj2 := mapInsert obj key value
                let p4 := skipWhiteSpace input p3
                match input[p4]? with
                | none => .crash p4
                | some c3 =>
                  if c3 = '\x7d' then objLoop input fuel obj2 p4
                  else if c3 ≠ ',' then
                    .err (.parseError "expected , after" p4) p4
                  else objLoop input fuel obj2 (p4 + 1)
termination_by structural fuel _ _ => fuel

/-- `func (p *Parser) parseArray() ([]interface{}, error)` (second version):
start with an empty slice, consume `[`, loop (see `arrLoop`). -/
def parseArray (input : List Char) : Nat → Nat → PResult JSON
  | 0, pos => .outOfFuel pos
  | fuel + 1, pos => arrLoop input fuel [] (pos + 1)
termination_by structural fuel _ => fuel

/-- The `for` loop of the second version's `parseArray`: skip whitespace,
parse a value unconditionally (there is no empty-array check), append it,
skip whitespace, then `]` ends the array (panic at end of input), `,`
continues; any other character is a positioned error. -/
def arrLoop (input : List Char) : Nat → List JSON → Nat → PResult JSON
  | 0, _, pos => .outOfFuel pos
  | fuel + 1, arr, pos0 =>
    let pos := skipWhiteSpace input pos0
    (parseValue input fuel pos).bind fun value p1 =>
      let arr2 := arr ++ [value]
      let p2 := skipWhiteSpace input p1
      match input[p2]? with
      | none => .crash p2
      | some c =>
        if c = ']' then .ok (JSON.arr arr2) (p2 + 1)
        else if c ≠ ',' then
          .err (.parseError "Expected , in array value" p2) p2
        else arrLoop input fuel arr2 (p2 + 1)
termination_by structural fuel _ _ => fuel

end

/-- `func (p *Parser) Parse() (JSON, error)` (second version): empty or
all-whitespace input silently returns `(nil, nil)`; otherwise parse one value;
on success with trailing non-whitespace the code prints a message but returns
`nil, err` with `err` known to be `nil` — that is, `(nil, nil)`, not an
error; otherwise return the value. -/
def Parse (input : List Char) (fuel : Nat) : PResult JSON :=
  if input.length ≤ 0 then .ok JSON.null 0
  else
    let pos := skipWhiteSpace input 0
    if input.length ≤ pos then .ok JSON.null pos
    else
      (parseValue input fuel pos).bind fun value p1 =>
        let p2 := skipWhiteSpace input p1
        if p2 < input.length then .ok JSON.null p2
        else .ok value p2

/-- Length of the maximal run of space characters at the head of a list
(the first version's `skipWhiteSpace` recognizes only `' '`). -/
def wsRunV1 : List Char → Nat
  | [] => 0
  | c :: rest => if c = ' ' then wsRunV1 rest + 1 else 0

namespace V1

/-- `func (p *Parser) skipWhiteSpace()` (first version): advances past spaces
only. -/
def skipWhiteSpace (input : List Char) (pos : Nat) : Nat :=
  pos + wsRunV1 (input.drop pos)

mutual

/-- `func (p *Parser) parseValue()` (first version): dispatches only on
`\x7b`, `"`, `[`; everything else is the default case `(nil, nil)`. -/
def parseValue (input : List Char) : Nat → Nat → PResult JSON
  | 0, pos => .outOfFuel pos
  | fuel + 1, pos0 =>
    let pos := V1.skipWhiteSpace input pos0
    match input[pos]? with
    | none => .crash pos
    | some cur =>
      if cur = '\x7b' then parseObject input fuel pos
      else if cur = '"' then
        (JsonParser.parseString input pos).bind fun s p => .ok (JSON.str s) p
      else if cur = '[' then parseArray input fuel pos
      else .ok JSON.null pos
termination_by structural fuel _ => fuel

/-- `func (p *Parser) parseObject()` (first version). -/
def parseObject (input : List Char) : Nat → Nat → PResult JSON
  | 0, pos => .outOfFuel pos
  | fuel + 1, pos => objLoop input fuel [] (pos + 1)
termination_by structural fuel _ => fuel

/-- The `for` loop of the first version's `parseObject`: like the second
version's but with no separator handling after a value — it loops straight
back to key parsing. -/
def objLoop (input : List Char) : Nat → List (String × JSON) → Nat → PResult JSON
  | 0, _, pos => .outOfFuel pos
  | fuel + 1, obj, pos0 =>
    let pos := V1.skipWhiteSpace input pos0
    match input[pos]? with
    | none => .err (.parseError "unexpected end of input" pos) pos
    | some c =>
      if c = '\x7d' then .ok (JSON.obj obj) (pos + 1)
      else
        (JsonParser.parseString input pos).bind fun key p1 =>
          let p2 := V1.skipWhiteSpace input p1
          match input[p2]? with
          | none => .crash p2
          | some c2 =>
            if c2 ≠ ':' then .err (.parseError "expected : after key" p2) p2
            else
              (parseValue input fuel (p2 + 1)).bind fun value p3 =>
                objLoop input fuel (mapInsert obj key value) p3
termination_by structural fuel _ _ => fuel

/-- `func (p *Parser) parseArray()` (first version). -/
def parseArray (input : List Char) : Nat → Nat → PResult JSON
  | 0, pos => .outOfFuel pos
  | fuel + 1, pos => arrLoop input fuel [] (pos + 1)
termination_by structural fuel _ => fuel

/-- The `for` loop of the first version's `parseArray`: like the second
version's, except a value-parse error is replaced by a new
"Failed to parse array value" ParseError at the current position. -/
def arrLoop (input : List Char) : Nat → List JSON → Nat → PResult JSON
  | 0, _, pos => .outOfFuel pos
  | fuel + 1, arr, pos0 =>
    let pos := V1.skipWhiteSpace input pos0
    match parseValue input fuel pos with
    | .ok value p1 =>
      let arr2 := arr ++ [value]
      let p2 := V1.skipWhiteSpace input p1
      match input[p2]? with
      | none => .crash p2
      | some c =>
        if c = ']' then .ok (JSON.arr arr2) (p2 + 1)
        else if c ≠ ',' then
          .err (.parseError "Expected , in array value" p2) p2
        else arrLoop input fuel arr2 (p2 + 1)
    | .err _ p => .err (.parseError "Failed to parse array value" p) p
    | .crash p => .crash p
    | .outOfFuel p => .outOfFuel p
termination_by structural fuel _ _ => fuel

end

/-- `func (p *Parser) Parse()` (first version): identical control flow to the
second version's, except that on success it prints the value and returns
`(nil, nil)` — the parsed value is discarded on every path. -/
def Parse (input : List Char) (fuel : Nat) : PResult JSON :=
  if input.length ≤ 0 then .ok JSON.null 0
  else
    let pos := V1.skipWhiteSpace input 0
    if input.length ≤ pos then .ok JSON.null pos
    else
      (parseValue input fuel pos).bind fun _ p1 =>
        let p2 := V1.skipWhiteSpace input p1
        if p2 < input.length then .ok JSON.null p2
        else .ok JSON.null p2

end V1

/-- Does the value dispatcher have a production for lookahead `c`?  The union
of the non-default cases of the second version's `parseValue` switch. -/
def dispatchChar (c : Char) : Bool :=
  c = '\x7b' || c = '"' || c = '[' || c = 'f' || c = 't' || c = 'n' || isScanChar c

/-- The input `"abc` — an opening quote with no closing quote. -/
def inputC1 : List Char := ['"', 'a', 'b', 'c']

/-- The input `x` — a character matching no grammar production. -/
def inputC2 : List Char := ['x']

/-- The input `\x7b\x7d x` — a complete object followed by trailing `x`. -/
def inputC3 : List Char := ['\x7b', '\x7d', ' ', 'x']

/-- The input `[]`. -/
def inputC4 : List Char := ['[', ']']

/-- The input `\x7b"a":1,"a":2\x7d` — an object with a duplicated key. -/
def inputC5 : List Char :=
  ['\x7b', '"', 'a', '"', ':', '1', ',', '"', 'a', '"', ':', '2', '\x7d']

/-- The input `\x7b"a": 1.2.3\x7d` — a number lexeme with a second decimal
point at offset 9. -/
def inputC6 : List Char :=
  ['\x7b', '"', 'a', '"', ':', ' ', '1', '.', '2', '.', '3', '\x7d']

/-- The input `\x7ba:1\x7d` — an object whose key does not start with `"`. -/
def inputC7 : List Char := ['\x7b', 'a', ':', '1', '\x7d']

/-- The input `[99999999999999999999]` — an array holding an integral lexeme
(twenty nines) that overflows a 64-bit `int`. -/
def inputC8 : List Char := '[' :: (List.replicate 20 '9' ++ [']'])

/-- The twenty-nines lexeme of `inputC8`. -/
def bigLexeme : String := String.mk (List.replicate 20 '9')

/-- The input `true`. -/
def inputC10 : List Char := ['t', 'r', 'u', 'e']

@[simp] theorem endPos_ok (a : α) (p : Nat) : (PResult.ok a p).endPos = p := rfl

@[simp] theorem endPos_err (e : GoError) (p : Nat) : (PResult.err e p : PResult α).endPos = p := rfl

@[simp] theorem endPos_crash (p : Nat) : (PResult.crash p : PResult α).endPos = p := rfl

@[simp] theorem endPos_outOfFuel (p : Nat) : (PResult.outOfFuel p : PResult α).endPos = p := rfl

/-- Monotonicity composes through error propagation: if the first step ends at
or beyond `pos` and the continuation never moves backwards, neither does the
whole. -/
theorem endPos_bind_le {r : PResult α} {f : α → Nat → PResult β} {pos : Nat}
    (h1 : pos ≤ r.endPos) (h2 : ∀ a p, p ≤ (f a p).endPos) :
    pos ≤ (r.bind f).endPos := by
  cases r with
  | ok a p => exact le_trans h1 (h2 a p)
  | err e p => exact h1
  | crash p => exact h1
  | outOfFuel p => exact h1

theorem le_skipWhiteSpace (input : List Char) (pos : Nat) :
    pos ≤ skipWhiteSpace input pos :=
  Nat.le_add_right pos _

/-- After a whitespace skip, the head of the remaining input is not whitespace
(or the input is exhausted), so skipping again does nothing. -/
theorem wsRun_drop_wsRun (l : List Char) : wsRun (l.drop (wsRun l)) = 0 := by
  induction l with
  | nil => rfl
  | cons c t ih =>
    by_cases h : isWhitespaceChar c = true
    · rw [wsRun, if_pos h]
      simpa using ih
    · rw [wsRun, if_neg h]
      simpa [wsRun] using h

theorem skipWhiteSpace_idem (input : List Char) (pos : Nat) :
    skipWhiteSpace input (skipWhiteSpace input pos) = skipWhiteSpace input pos := by
  unfold skipWhiteSpace
  have h : input.drop (pos + wsRun (input.drop pos)) =
      (input.drop pos).drop (wsRun (input.drop pos)) := by
    rw [List.drop_drop, Nat.add_comm]
  rw [h, wsRun_drop_wsRun]
  omega

theorem stringScan_le (l : List Char) : ∀ pos : Nat, pos ≤ (stringScan pos l).endPos := by
  induction l with
  | nil => intro pos; simp [stringScan]
  | cons c t ih =>
    intro pos
    rw [stringScan]
    by_cases h : c = '"'
    · simp [h]
    · simpa [h] using le_trans (Nat.le_succ pos) (ih (pos + 1))

theorem parseString_le (input : List Char) (pos : Nat) :
    pos ≤ (parseString input pos).endPos := by
  unfold parseString
  refine endPos_bind_le ?_ ?_
  · exact le_trans (Nat.le_succ pos) (stringScan_le _ (pos + 1))
  · intro a p
    simp

theorem literalLoop_le (input : List Char) (literal : String) (start : Nat)
    (l : List Char) : ∀ pos : Nat, pos ≤ (literalLoop input literal start pos l).endPos := by
  induction l with
  | nil => intro pos; simp [literalLoop]
  | cons c t ih =>
    intro pos
    rw [literalLoop]
    by_cases h : isDelim c = true
    · simp only [h, if_true]
      split <;> (try split) <;> (try split) <;> (try split) <;> simp
    · simpa [h] using le_trans (Nat.le_succ pos) (ih (pos + 1))

theorem parseLiteral_le (input : List Char) (literal : String) (pos : Nat) :
    pos ≤ (parseLiteral input literal pos).endPos :=
  le_trans (Nat.le_succ pos) (literalLoop_le input literal pos _ (pos + 1))

theorem numLoop_le (input : List Char) (start : Nat) (l : List Char) :
    ∀ (pos : Nat) (df : Bool), pos ≤ (numLoop input start pos df l).endPos := by
  induction l with
  | nil => intro pos df; simp [numLoop]
  | cons c t ih =>
    intro pos df
    rw [numLoop]
    split
    · exact le_trans (Nat.le_succ pos) (ih (pos + 1) df)
    · split
      · split
        · simp
        · exact le_trans (Nat.le_succ pos) (ih (pos + 1) true)
      · split
        · split
          · dsimp only
            split <;> simp
          · dsimp only
            split <;> simp
        · simp

theorem parseNumber_le (input : List Char) (pos : Nat) :
    pos ≤ (parseNumber input pos).endPos :=
  numLoop_le input pos _ pos false

/-- Joint monotonicity of the mutually recursive parsers, by induction on
fuel: none of them ever ends at a position before its starting position. -/
theorem mono_fuel (input : List Char) : ∀ fuel : Nat,
    (∀ pos, pos ≤ (parseValue input fuel pos).endPos) ∧
    (∀ pos, pos ≤ (parseObject input fuel pos).endPos) ∧
    (∀ pos, pos ≤ (parseArray input fuel pos).endPos) ∧
    (∀ obj pos, pos ≤ (objLoop input fuel obj pos).endPos) ∧
    (∀ arr pos, pos ≤ (arrLoop input fuel arr pos).endPos) := by
  intro fuel
  induction fuel with
  | zero =>
    refine ⟨fun pos => ?_, fun pos => ?_, fun pos => ?_, fun obj pos => ?_,
      fun arr pos => ?_⟩ <;>
      simp [parseValue, parseObject, parseArray, objLoop, arrLoop]
  | succ n ih =>
    obtain ⟨ihV, ihO, ihA, ihOL, ihAL⟩ := ih
    refine ⟨fun pos => ?_, fun pos => ?_, fun pos => ?_, fun obj pos => ?_,
      fun arr pos => ?_⟩
    · rw [parseValue]
      refine le_trans (le_skipWhiteSpace input pos) ?_
      try dsimp only
      cases hg : input[skipWhiteSpace input pos]? with
      | none => simp
      | some cur =>
        dsimp only
        split
        · exact ihO _
        split
        · exact endPos_bind_le (parseString_le input _) (fun a p => by simp)
        split
        · exact ihA _
        split
        · exact parseLiteral_le input "false" _
        split
        · exact parseLiteral_le input "true" _
        split
        · exact parseLiteral_le input "null" _
        split
        · exact parseNumber_le input _
        · simp
    · rw [parseObject]
      exact le_trans (Nat.le_succ _) (ihOL [] (pos + 1))
    · rw [parseArray]
      exact le_trans (Nat.le_succ _) (ihAL [] (pos + 1))
    · rw [objLoop]
      refine le_trans (le_skipWhiteSpace input pos) ?_
      try dsimp only
      cases hg : input[skipWhiteSpace input pos]? with
      | none => simp
      | some c =>
        dsimp only
        split
        · simp
        · refine endPos_bind_le (parseString_le input _) ?_
          intro key p1
          try dsimp only
          refine le_trans (le_skipWhiteSpace input p1) ?_
          cases hg2 : input[skipWhiteSpace input p1]? with
          | none => simp
          | some c2 =>
            dsimp only
            split
            · simp
            · refine endPos_bind_le (le_trans (Nat.le_succ _) (ihV _)) ?_
              intro value p3
              try dsimp only
              refine le_trans (le_skipWhiteSpace input p3) ?_
              cases hg3 : input[skipWhiteSpace input p3]? with
              | none => simp
              | some c3 =>
                dsimp only
                split
                · exact ihOL _ _
                split
                · simp
                · exact le_trans (Nat.le_succ _) (ihOL _ _)
    · rw [arrLoop]
      refine le_trans (le_skipWhiteSpace input pos) ?_
      try dsimp only
      refine endPos_bind_le (ihV _) ?_
      intro value p1
      try dsimp only
      refine le_trans (le_skipWhiteSpace input p1) ?_
      cases hg : input[skipWhiteSpace input p1]? with
      | none => simp
      | some c =>
        dsimp only
        split
        · simp
        split
        · simp
        · exact le_trans (Nat.le_succ _) (ihAL _ _)

/-- If no closing quote occurs in the remaining input, the string scan loop
runs past the end and crashes at the out-of-bounds index. -/
theorem stringScan_no_quote (l : List Char) :
    ∀ pos : Nat, (∀ c ∈ l, c ≠ '"') → stringScan pos l = .crash (pos + l.length) := by
  induction l with
  | nil => intro pos _; simp [stringScan]
  | cons c t ih =>
    intro pos h
    have hc : c ≠ '"' := h c (by simp)
    rw [stringScan, if_neg hc, ih (pos + 1) (fun x hx => h x (by simp [hx]))]
    simp
    omega

/-- The number scan loop walks over any block of `-`/digit characters,
advancing the position by its length and leaving the flag unchanged. -/
theorem numLoop_scanPrefix (input : List Char) (start : Nat) (rest : List Char)
    (A : List Char) : A.all isScanChar = true → ∀ (pos : Nat) (df : Bool),
    numLoop input start pos df (A ++ rest) = numLoop input start (pos + A.length) df rest := by
  induction A with
  | nil => intro _ pos df; simp
  | cons c t ih =>
    intro hA pos df
    rw [List.all_cons, Bool.and_eq_true] at hA
    rw [List.cons_append, numLoop, if_pos hA.1, ih hA.2 (pos + 1) df]
    congr 1
    simp
    omega

/-- A first decimal point sets the flag and moves on. -/
theorem numLoop_dot_first (input : List Char) (start pos : Nat) (rest : List Char) :
    numLoop input start pos false ('.' :: rest) = numLoop input start (pos + 1) true rest := rfl

/-- A second decimal point is a positioned ParseError at its own offset. -/
theorem numLoop_dot_second (input : List Char) (start pos : Nat) (rest : List Char) :
    numLoop input start pos true ('.' :: rest) =
      .err (.parseError ("Expected digit, got " ++ goQuoteChar '.') pos) pos := rfl

/-- A run of space characters is entirely whitespace for both versions'
whitespace counters. -/
theorem wsRun_all_space (l : List Char) (h : ∀ c ∈ l, c = ' ') : wsRun l = l.length := by
  induction l with
  | nil => rfl
  | cons c t ih =>
    have hc : c = ' ' := h c (by simp)
    subst hc
    rw [wsRun, if_pos (by decide), ih (fun x hx => h x (by simp [hx]))]
    simp

theorem wsRunV1_all_space (l : List Char) (h : ∀ c ∈ l, c = ' ') :
    wsRunV1 l = l.length := by
  induction l with
  | nil => rfl
  | cons c t ih =>
    have hc : c = ' ' := h c (by simp)
    subst hc
    rw [wsRunV1, if_pos rfl, ih (fun x hx => h x (by simp [hx]))]
    simp

/-- `strconv.Atoi` on a nonempty all-digit string whose value does not fit in
`int64` returns `ErrRange`. -/
theorem goAtoi_overflow (ds : List Char) (hall : ds.all isDigitByte = true)
    (hne : ds ≠ []) (hge : 2 ^ 63 ≤ ds.foldl (fun acc c => acc * 10 + digitVal c) 0) :
    goAtoi (String.mk ds) = .error (.numError "Atoi" (String.mk ds) .errRange) := by
  rcases ds with _ | ⟨c, rest⟩
  · exact absurd rfl hne
  · rw [List.all_cons, Bool.and_eq_true] at hall
    have hplus : c ≠ '+' := by
      intro hc
      rw [hc] at hall
      exact absurd hall.1 (by decide)
    have hminus : c ≠ '-' := by
      intro hc
      rw [hc] at hall
      exact absurd hall.1 (by decide)
    have hallb : (c :: rest).all isDigitByte = true := by
      rw [List.all_cons, Bool.and_eq_true]
      exact ⟨hall.1, hall.2⟩
    have hmk : digitsToNat? (c :: rest) =
        some ((c :: rest).foldl (fun acc c => acc * 10 + digitVal c) 0) := by
      rw [digitsToNat?, if_neg (by simp [hallb])]
    unfold goAtoi
    split
    · next r1 heq =>
      exact absurd (List.head_eq_of_cons_eq heq) hplus
    · next r1 heq =>
      exact absurd (List.head_eq_of_cons_eq heq) hminus
    · rw [goAtoiCore, show (String.mk (c :: rest)).data = c :: rest from rfl, hmk]
      simp only [Bool.false_eq_true, if_false]
      rw [if_pos hge]

/-- C1: the claim says an unterminated string yields a recoverable
`UnterminatedString` error and that the out-of-bounds branch of the string
scan loop is unreachable.  On the code the opposite holds: whenever no closing
quote follows, the scan loop runs to the end of the input and indexes out of
bounds (a Go runtime panic), at position one past the end; in particular
`Parse` on `"abc` panics at position 4.  There is no `UnterminatedString`
error anywhere in the source. -/
theorem c1_unterminated_string_crashes :
    (∀ (input : List Char) (pos : Nat),
        (∀ c ∈ input.drop (pos + 1), c ≠ '"') →
        parseString input pos = .crash (pos + 1 + (input.drop (pos + 1)).length)) ∧
    Parse inputC1 100 = .crash 4 := by
  constructor
  · intro input pos h
    unfold parseString
    rw [stringScan_no_quote _ _ h]
    rfl
  · rfl

/-- C1 witness: the general statement applied to the concrete input `"abc`. -/
theorem c1_witness : parseString inputC1 0 = .crash 4 := by
  have h := c1_unterminated_string_crashes.1 inputC1 0 (by decide)
  exact h

/-- C2: the claim says the dispatcher fails with `UnexpectedCharacter` on a
character matching no production.  On the code the default case of the
`parseValue` switch returns `(nil, nil)` — success with a nil value and no
error, without advancing; in particular on input `x` both `parseValue` and
`Parse` succeed.  No `UnexpectedCharacter` error exists in the source. -/
theorem c2_unexpected_character_is_silent_nil :
    (∀ (input : List Char) (fuel pos : Nat) (c : Char),
        input[skipWhiteSpace input pos]? = some c → dispatchChar c = false →
        parseValue input (fuel + 1) pos = .ok JSON.null (skipWhiteSpace input pos)) ∧
    parseValue inputC2 1 0 = .ok JSON.null 0 ∧
    Parse inputC2 100 = .ok JSON.null 0 := by
  refine ⟨?_, rfl, rfl⟩
  intro input fuel pos c hg hd
  have h1 : ¬(c = '\x7b') := by intro hc; rw [hc] at hd; exact absurd hd (by decide)
  have h2 : ¬(c = '"') := by intro hc; rw [hc] at hd; exact absurd hd (by decide)
  have h3 : ¬(c = '[') := by intro hc; rw [hc] at hd; exact absurd hd (by decide)
  have h4 : ¬(c = 'f') := by intro hc; rw [hc] at hd; exact absurd hd (by decide)
  have h5 : ¬(c = 't') := by intro hc; rw [hc] at hd; exact absurd hd (by decide)
  have h6 : ¬(c = 'n') := by intro hc; rw [hc] at hd; exact absurd hd (by decide)
  have h7 : isScanChar c = false := by
    cases hsc : isScanChar c
    · rfl
    · rw [dispatchChar, hsc] at hd
      simp at hd
  rw [parseValue]
  try dsimp only
  rw [hg]
  dsimp only
  rw [if_neg h1, if_neg h2, if_neg h3, if_neg h4, if_neg h5, if_neg h6,
    if_neg (by simp [h7])]

/-- C2 witness: the general statement applied to the concrete input `x`. -/
theorem c2_witness : parseValue inputC2 3 0 = .ok JSON.null 0 := by
  have h := c2_unexpected_character_is_silent_nil.1 inputC2 2 0 'x' rfl (by decide)
  exact h

/-- C3: the claim says trailing non-whitespace after a complete value is a
`TrailingCharacters` error at the first unconsumed character.  On the code the
trailing branch of `Parse` executes `return nil, err` where `err` is known to
be `nil`, so `Parse` silently succeeds with a nil value (it prints a message
but returns no error); in particular `\x7b\x7d x` yields `(nil, nil)`.
No `TrailingCharacters` error exists in the source. -/
theorem c3_trailing_characters_silent_nil :
    (∀ (input : List Char) (fuel : Nat) (value : JSON) (p1 : Nat),
        input ≠ [] →
        skipWhiteSpace input 0 < input.length →
        parseValue input fuel (skipWhiteSpace input 0) = .ok value p1 →
        skipWhiteSpace input p1 < input.length →
        Parse input fuel = .ok JSON.null (skipWhiteSpace input p1)) ∧
    Parse inputC3 100 = .ok JSON.null 3 := by
  refine ⟨?_, rfl⟩
  intro input fuel value p1 hne hstart hv htrail
  rw [Parse, if_neg (by simp [hne])]
  try dsimp only
  rw [hv]
  dsimp only [PResult.bind]
  rw [if_neg (by omega), if_pos htrail]

/-- C3 witness: the general statement applied to `\x7b\x7d x`, whose object
value ends at position 2 with trailing `x` at position 3. -/
theorem c3_witness : Parse inputC3 100 = .ok JSON.null 3 :=
  c3_trailing_characters_silent_nil.1 inputC3 100 (JSON.obj []) 2 (by decide)
    (by decide) rfl (by decide)

/-- C4: the claim says `[]` parses to an empty array.  On the code
`parseArray` parses a value before ever looking for `]`, and on `[]` the
dispatcher's default case contributes a nil element, so `Parse "[]"` succeeds
with the one-element array `[null]`, not the empty array. -/
theorem c4_empty_array_brackets_give_null_element :
    Parse inputC4 100 = .ok (JSON.arr [JSON.null]) 2 ∧
    JSON.arr [JSON.null] ≠ JSON.arr [] := by
  refine ⟨rfl, ?_⟩
  intro h
  injection h with h2
  exact absurd h2 (by simp)

/-- C5: duplicate object keys resolve last-write-wins: the Go map assignment
used by `parseObject` overwrites any existing binding of the key, and parsing
`\x7b"a":1,"a":2\x7d` yields an object binding `"a"` to `2`. -/
theorem c5_duplicate_keys_last_write_wins :
    (∀ (m : List (String × JSON)) (k : String) (v : JSON),
        mapLookup (mapInsert m k v) k = some v) ∧
    Parse inputC5 100 = .ok (JSON.obj [("a", JSON.int 2)]) 13 := by
  refine ⟨?_, rfl⟩
  intro m k v
  induction m with
  | nil => simp [mapInsert, mapLookup]
  | cons kv rest ih =>
    obtain ⟨k2, v2⟩ := kv
    by_cases h : k2 = k
    · simp [mapInsert, mapLookup, h]
    · simp [mapInsert, mapLookup, h, ih]

/-- C6: a second decimal point in a number lexeme fails with the number
parser's positioned ParseError (the spec's `MalformedNumber`) at the offset of
that second `.`: after any scan block, a `.`, and a further scan block, a
second `.` errors exactly at its own offset; in particular
`\x7b"a": 1.2.3\x7d` fails at offset 9, the second dot. -/
theorem c6_second_decimal_point_errors_at_its_offset :
    (∀ (pre A B rest : List Char), A.all isScanChar = true → B.all isScanChar = true →
        parseNumber (pre ++ (A ++ '.' :: (B ++ '.' :: rest))) pre.length =
          .err (.parseError ("Expected digit, got " ++ goQuoteChar '.')
                  (pre.length + A.length + 1 + B.length))
               (pre.length + A.length + 1 + B.length)) ∧
    Parse inputC6 100 =
      .err (.parseError ("Expected digit, got " ++ goQuoteChar '.') 9) 9 := by
  refine ⟨?_, rfl⟩
  intro pre A B rest hA hB
  unfold parseNumber
  rw [List.drop_left, numLoop_scanPrefix _ _ _ A hA, numLoop_dot_first,
    numLoop_scanPrefix _ _ _ B hB, numLoop_dot_second]

/-- C6 witness: the general statement applied to the lexeme `1.2.3` embedded
after a one-character prefix. -/
theorem c6_witness :
    parseNumber (['x'] ++ (['1'] ++ '.' :: (['2'] ++ '.' :: ['3']))) 1 =
      .err (.parseError ("Expected digit, got " ++ goQuoteChar '.') 4) 4 := by
  have h := c6_second_decimal_point_errors_at_its_offset.1 ['x'] ['1'] ['2'] ['3']
    (by decide) (by decide)
  exact h

/-- C7: the claim says a non-`"` character where an object key is expected
fails with `ExpectedObjectKey`.  On the code `parseObject` calls `parseString`
unconditionally on any character other than `\x7d`; on `\x7ba:1\x7d` the
string scan finds no quote and indexes out of bounds, a runtime panic at
position 5.  No `ExpectedObjectKey` error exists in the source. -/
theorem c7_object_key_without_quote_crashes : Parse inputC7 100 = .crash 5 := rfl

/-- C8 counterexample: on the overflowing lexeme of twenty nines the parser
fails with `strconv`'s `NumError` (range), an error that carries the function
name and the lexeme but no input offset — refuting the claim that the error
carries the detection offset like every other error kind. -/
theorem c8_counterexample_no_offset :
    Parse inputC8 100 = .err (.numError "Atoi" bigLexeme .errRange) 21 ∧
    GoError.position (.numError "Atoi" bigLexeme .errRange) = none :=
  ⟨rfl, rfl⟩

/-- C8 amended: an integral lexeme that scans successfully but overflows the
64-bit `int` makes `strconv.Atoi`, and hence the number parser, fail with the
range `NumError` identifying the lexeme — but that error, unlike `ParseError`,
carries no input offset. -/
theorem c8_overflow_is_range_numerror :
    (∀ ds : List Char, ds.all isDigitByte = true → ds ≠ [] →
        2 ^ 63 ≤ ds.foldl (fun acc c => acc * 10 + digitVal c) 0 →
        goAtoi (String.mk ds) = .error (.numError "Atoi" (String.mk ds) .errRange) ∧
        GoError.position (.numError "Atoi" (String.mk ds) .errRange) = none) ∧
    Parse inputC8 100 = .err (.numError "Atoi" bigLexeme .errRange) 21 := by
  refine ⟨?_, rfl⟩
  intro ds hall hne hge
  exact ⟨goAtoi_overflow ds hall hne hge, rfl⟩

/-- C8 witness: the amended statement applied to the twenty-nines lexeme. -/
theorem c8_witness :
    goAtoi bigLexeme = .error (.numError "Atoi" bigLexeme .errRange) := by
  have h := c8_overflow_is_range_numerror.1 (List.replicate 20 '9')
    (by decide) (by decide) (by decide)
  exact h.1

/-- C9: the cursor position advances monotonically: every parser operation of
the second version — `Parse`, `parseValue`, `parseObject`, `parseArray`,
`parseString`, `parseLiteral`, `parseNumber`, `skipWhiteSpace` — ends, on any
outcome (success, error or panic), at a position at least its starting
position. -/
theorem c9_position_monotone (input : List Char) (fuel pos : Nat) (literal : String) :
    0 ≤ (Parse input fuel).endPos ∧
    pos ≤ (parseValue input fuel pos).endPos ∧
    pos ≤ (parseObject input fuel pos).endPos ∧
    pos ≤ (parseArray input fuel pos).endPos ∧
    pos ≤ (parseString input pos).endPos ∧
    pos ≤ (parseLiteral input literal pos).endPos ∧
    pos ≤ (parseNumber input pos).endPos ∧
    pos ≤ skipWhiteSpace input pos := by
  obtain ⟨hV, hO, hA, _, _⟩ := mono_fuel input fuel
  exact ⟨Nat.zero_le _, hV pos, hO pos, hA pos, parseString_le input pos,
    parseLiteral_le input literal pos, parseNumber_le input pos,
    le_skipWhiteSpace input pos⟩

/-- C10 counterexample: the two historical versions are not equivalent.  On
input `true` the first version's `Parse` silently succeeds with a nil value
(its dispatcher has no literal production and its trailing branch returns
`nil, nil`), while the second version's `Parse` panics (the literal scan finds
no delimiter and indexes out of bounds). -/
theorem c10_counterexample_versions_differ :
    V1.Parse inputC10 100 = .ok JSON.null 0 ∧
    Parse inputC10 100 = .crash 4 ∧
    V1.Parse inputC10 100 ≠ Parse inputC10 100 := by
  refine ⟨rfl, rfl, ?_⟩
  intro h
  rw [show V1.Parse inputC10 100 = .ok JSON.null 0 from rfl,
    show Parse inputC10 100 = .crash 4 from rfl] at h
  exact PResult.noConfusion h

/-- C10 amended: the two versions are not equivalent in general (the second
adds literal and number productions and object comma handling, and returns
the parsed value where the first always returns nil); they do agree — both
silently returning a nil value — on empty and all-space inputs. -/
theorem c10_versions_agree_on_space_only (input : List Char)
    (h : ∀ c ∈ input, c = ' ') (fuel : Nat) :
    V1.Parse input fuel = .ok JSON.null input.length ∧
    Parse input fuel = .ok JSON.null input.length := by
  rcases input with _ | ⟨c, t⟩
  · exact ⟨rfl, rfl⟩
  · have h1 : wsRunV1 (c :: t) = (c :: t).length := wsRunV1_all_space _ h
    have h2 : wsRun (c :: t) = (c :: t).length := wsRun_all_space _ h
    constructor
    · rw [V1.Parse, if_neg (by simp)]
      try dsimp only
      rw [V1.skipWhiteSpace]
      simp only [List.drop_zero, h1]
      rw [if_pos (by omega)]
      simp
    · rw [Parse, if_neg (by simp)]
      try dsimp only
      rw [skipWhiteSpace]
      simp only [List.drop_zero, h2]
      rw [if_pos (by omega)]
      simp

/-- C10 witness: the amended statement applied to a two-space input. -/
theorem c10_witness :
    V1.Parse [' ', ' '] 5 = .ok JSON.null 2 ∧ Parse [' ', ' '] 5 = .ok JSON.null 2 := by
  have h := c10_versions_agree_on_space_only [' ', ' '] (by decide) 5
  exact h

end JsonParser
